import Mathlib

/-!
Verification of the ThemeTracker repository against its natural-language
specification.

The repository has two Python source files:

* `ThemesTracker.py` — a Reddit theme analyzer: text normalization
  (`preprocess_text`), unigram/bigram frequency extraction (`extract_themes`),
  sentiment scoring (`analyze_sentiment`), and a template-based speech-title
  generator (`generate_titles` inside `main`).
* `theme-tracker.py` — a YouTube trend analyzer: a rule-based topical
  classifier (`generate_video_context`) and a cross-source combiner with
  id-based deduplication (the "Combined (All Time Periods)" branch of tab 2).

Below, each Python function is shallowly embedded as an executable Lean
definition.  Python strings are modeled as Lean `String` (manipulated through
their `List Char` field so everything kernel-reduces); Python character
predicates (`str.isalpha`, `str.lower`, `str.isspace`) are modeled on ASCII
code points via `Char.toNat`; Python `Counter`/`dict` is modeled as an
insertion-ordered association list `List (α × Nat)`; a Python `IndexError`
is modeled by the error type `PyErr`; pandas' `NaN` result for the mean of an
empty series is modeled as `none : Option ℚ`; floating-point polarity scores
are modeled as rationals.  External NLTK collaborators (`word_tokenize`,
`WordNetLemmatizer.lemmatize`, the stopword corpus) are parameters of the
embedding.
-/

namespace ThemeTracker

/-! ## ASCII character model of the Python string primitives -/

/-- Python `str.lower` on one ASCII character: `'A'..'Z'` maps to
`'a'..'z'`, everything else is unchanged. -/
def charToLower (c : Char) : Char :=
  if 65 ≤ c.toNat ∧ c.toNat ≤ 90 then Char.ofNat (c.toNat + 32) else c

/-- Python `str.lower` over a whole string. -/
def pyLower (s : String) : String := ⟨s.data.map charToLower⟩

/-- Python `c.isalpha()` for one ASCII character. -/
def pyIsAlphaChar (c : Char) : Bool :=
  decide ((65 ≤ c.toNat ∧ c.toNat ≤ 90) ∨ (97 ≤ c.toNat ∧ c.toNat ≤ 122))

/-- One character of the Python `str.isspace` class (ASCII whitespace:
tab, newline, vertical tab, form feed, carriage return, space). -/
def pyIsSpaceChar (c : Char) : Bool :=
  [9, 10, 11, 12, 13, 32].contains c.toNat

/-- Python `s.isalpha()`: non-empty and all characters alphabetic. -/
def pyIsAlpha (s : String) : Bool :=
  !s.data.isEmpty && s.data.all pyIsAlphaChar

/-- Python `s.isspace()`: non-empty and all characters whitespace. -/
def pyIsSpace (s : String) : Bool :=
  !s.data.isEmpty && s.data.all pyIsSpaceChar

/-- Python truthiness of a string: `not text` holds exactly when the string
is empty. -/
def pyFalsy (s : String) : Bool := s.data.isEmpty

/-- Decidable substring test on character lists: `isPrefixList p s` holds
when `p` is a prefix of `s`. -/
def isPrefixList : List Char → List Char → Bool
  | [], _ => true
  | _ :: _, [] => false
  | a :: as, b :: bs => a == b && isPrefixList as bs

/-- `containsSub p s` holds when `p` occurs contiguously inside `s`; this is
`re.search` for a regex that is a plain literal (no metacharacters). -/
def containsSub (p : List Char) : List Char → Bool
  | [] => isPrefixList p []
  | c :: rest => isPrefixList p (c :: rest) || containsSub p rest

/-- Total lexicographic comparison of character lists by code point
(used only by the spec-side ranking definition for claim C3). -/
def lexLe : List Char → List Char → Bool
  | [], _ => true
  | _ :: _, [] => false
  | a :: as, b :: bs =>
    if a.toNat < b.toNat then true
    else if b.toNat < a.toNat then false
    else lexLe as bs

/-! ## Insertion-ordered counter (Python `collections.Counter`)

A Python `Counter` built by iterating a list is a dict whose keys appear in
first-occurrence order.  `counterAdd` increments an existing key in place
(leaving key order unchanged) or appends a new key with count 1. -/

/-- Add one occurrence of `x` to an insertion-ordered counter. -/
def counterAdd {α : Type} [DecidableEq α] : List (α × Nat) → α → List (α × Nat)
  | [], x => [(x, 1)]
  | (k, n) :: rest, x =>
    if k = x then (k, n + 1) :: rest else (k, n) :: counterAdd rest x

/-- `collections.Counter(l)`: count the elements of `l`, keys in
first-occurrence order. -/
def counterOf {α : Type} [DecidableEq α] (l : List α) : List (α × Nat) :=
  l.foldl counterAdd []

/-- The keys of a list in first-occurrence order (accumulator version). -/
def firstOccAux {α : Type} [DecidableEq α] (acc : List α) : List α → List α
  | [] => acc
  | x :: xs => if x ∈ acc then firstOccAux acc xs else firstOccAux (acc ++ [x]) xs

/-- The distinct elements of a list in first-occurrence order. -/
def firstOcc {α : Type} [DecidableEq α] (l : List α) : List α :=
  firstOccAux [] l

/-! ## `ThemesTracker.py`: `RedditThemeAnalyzer.preprocess_text`

```python
if not text or text.isspace():
    return []
tokens = word_tokenize(text.lower())
tokens = [token for token in tokens if token.isalpha()
          and token not in self.stop_words
          and len(token) > 1]
tokens = [self.lemmatizer.lemmatize(token) for token in tokens]
return tokens
```

`word_tokenize`, `lemmatize` and the stopword set are external NLTK
collaborators and are parameters here.  (The leading `str(text)` coercion of
non-string input and the catch-all `except` that returns `[]` are outside
the model: the embedded body is total, so it never raises.) -/

/-- Embedding of `RedditThemeAnalyzer.preprocess_text`. -/
def preprocessText (tokenize : String → List String) (lemmatize : String → String)
    (stopWords : List String) (text : String) : List String :=
  if pyFalsy text || pyIsSpace text then []
  else
    ((tokenize (pyLower text)).filter fun t =>
      pyIsAlpha t && !(stopWords.contains t) && decide (1 < t.length)).map lemmatize

/-- The token shape that the specification promises for every output of the
normalizer: non-empty, purely alphabetic, lowercase, length at least 2, and
not a stopword. -/
def validToken (stopWords : List String) (t : String) : Prop :=
  t.data ≠ [] ∧
  (∀ c ∈ t.data, pyIsAlphaChar c = true ∧ 97 ≤ c.toNat ∧ c.toNat ≤ 122) ∧
  2 ≤ t.length ∧ t ∉ stopWords

/-- A concrete whitespace tokenizer, used only to instantiate witnesses:
splits on the space character and drops empty pieces. -/
def wsTokenize (s : String) : List String :=
  ((s.data.splitOn ' ').filter (fun l => !l.isEmpty)).map String.mk

/-! ## `ThemesTracker.py`: `RedditThemeAnalyzer.extract_themes`

```python
all_tokens = []
for text in df['full_text']:
    tokens = self.preprocess_text(text)
    all_tokens.extend(tokens)
word_freq = Counter(all_tokens)
bigrams = list(nltk.bigrams(all_tokens))
bigram_freq = Counter(bigrams)
```

The input is the per-item token sequences produced by `preprocess_text`;
`nltk.bigrams(l)` is `zip(l, l[1:])`. -/

/-- Embedding of `RedditThemeAnalyzer.extract_themes` (the aggregation over
already-normalized per-item token sequences). -/
def extractThemes (tokenLists : List (List String)) :
    List (String × Nat) × List ((String × String) × Nat) :=
  let allTokens := tokenLists.flatten
  let wordFreq := counterOf allTokens
  let bigrams := allTokens.zip allTokens.tail
  (wordFreq, counterOf bigrams)

/-! ## `ThemesTracker.py`: `RedditThemeAnalyzer.analyze_sentiment`

```python
try:
    sentiments = []
    for text in df['full_text']:
        blob = TextBlob(str(text))
        sentiments.append(blob.sentiment.polarity)
    return pd.Series(sentiments)
except Exception as e:
    st.error(...)
    return pd.Series([0] * len(df))
```

`TextBlob(...).sentiment.polarity` is the external scorer; it is a parameter
`score` whose `none` result models a raised exception.  The `try` wraps the
whole loop, so one failure discards every collected score. -/

/-- The loop body of `analyze_sentiment`: `none` models an exception escaping
the loop. -/
def scoreLoop (score : String → Option ℚ) : List String → Option (List ℚ)
  | [] => some []
  | t :: ts =>
    match score t with
    | none => none
    | some p => (scoreLoop score ts).map (p :: ·)

/-- Embedding of `RedditThemeAnalyzer.analyze_sentiment`. -/
def analyzeSentiment (score : String → Option ℚ) (texts : List String) : List ℚ :=
  match scoreLoop score texts with
  | some sentiments => sentiments
  | none => List.replicate texts.length 0

/-- Modelled from the spec: the per-item failure policy the specification
describes for the Sentiment Scorer — "any per-item scoring failure
substitutes 0.0 for that item and continues".  Used as the comparison point
for claim C4; the code (`analyzeSentiment`) does not implement it. -/
def specSentimentPerItem (score : String → Option ℚ) (texts : List String) : List ℚ :=
  texts.map fun t => (score t).getD 0

/-- A concrete scorer that fails (raises) on the text `"bad"` and returns
polarity 1 otherwise; used by the C4 counterexample and witness. -/
def failOnBad (t : String) : Option ℚ :=
  if t = "bad" then none else some 1

/-! ## `ThemesTracker.py`: `sentiment.mean()` in `main`

`all_results[subreddit]['sentiment'] = sentiment.mean()` takes the pandas
mean of the per-post polarity series.  For a non-empty series this is the
arithmetic mean; for an empty series pandas returns `NaN`, modeled here as
`none` (the absence of a numeric value). -/

/-- Embedding of `pandas.Series.mean` on a series of polarity scores. -/
def seriesMean (l : List ℚ) : Option ℚ :=
  if l.isEmpty then none else some (l.sum / (l.length : ℚ))

/-! ## `ThemesTracker.py`: `generate_titles` (inside `main`)

```python
all_words = []
all_bigrams = []
overall_sentiment = 0
for sub_results in results_dict.values():
    words = list(sub_results['word_freq'].keys())[:5]
    all_words.extend(words)
    bigrams = list(sub_results['bigram_freq'].keys())[:3]
    all_bigrams.extend(bigrams)
    overall_sentiment += sub_results['sentiment']
titles = [ ... ten f-strings indexing all_words[0..4] and all_bigrams[0..2] ... ]
return titles
```

`results_dict.values()` iterates the per-subreddit results in insertion
order; each entry holds `word_freq`, `bigram_freq` (insertion-ordered
counters) and a `sentiment` float.  `list(counter.keys())[:5]` takes the
FIRST five keys in insertion order — no sorting happens here.  Each
`all_words[k]` / `all_bigrams[k]` is Python list indexing, which raises
`IndexError("list index out of range")` when the list is too short; that
error names no slot and is caught by the catch-all handler in `main`. -/

/-- One entry of `all_results`: the per-subreddit analysis bundle. -/
structure SubResult where
  wordFreq : List (String × Nat)
  bigramFreq : List ((String × String) × Nat)
  sentiment : ℚ
  deriving DecidableEq, Repr

/-- Python `IndexError`: a generic error value that carries no information
about which index or slot was missing. -/
inductive PyErr where
  | indexOutOfRange
  deriving DecidableEq, Repr

/-- Python list indexing `l[i]`: raises `IndexError` past the end. -/
def pyGet {α : Type} (l : List α) (i : Nat) : Except PyErr α :=
  match l.get? i with
  | some x => Except.ok x
  | none => Except.error PyErr.indexOutOfRange

/-- Python `str.title()` on ASCII: the first character of every alphabetic
run is uppercased, the rest of the run lowercased. -/
def charToUpper (c : Char) : Char :=
  if 97 ≤ c.toNat ∧ c.toNat ≤ 122 then Char.ofNat (c.toNat - 32) else c

/-- Worker for `pyTitleCase`; the flag records whether the previous
character was alphabetic. -/
def pyTitleAux : Bool → List Char → List Char
  | _, [] => []
  | prevAlpha, c :: cs =>
    if pyIsAlphaChar c then
      (if prevAlpha then charToLower c else charToUpper c) :: pyTitleAux true cs
    else
      c :: pyTitleAux false cs

/-- Embedding of Python `str.title()`. -/
def pyTitleCase (s : String) : String := ⟨pyTitleAux false s.data⟩

/-- `all_words` of `generate_titles`: per source, the first five keys of its
word counter, concatenated by `extend` in source order. -/
def mergedWords (results : List SubResult) : List String :=
  results.foldl (fun acc r => acc ++ (r.wordFreq.map Prod.fst).take 5) []

/-- `all_bigrams` of `generate_titles`: per source, the first three keys of
its bigram counter, concatenated by `extend` in source order. -/
def mergedBigrams (results : List SubResult) : List (String × String) :=
  results.foldl (fun acc r => acc ++ (r.bigramFreq.map Prod.fst).take 3) []

/-- `overall_sentiment` of `generate_titles`: accumulated but never used in
any title. -/
def overallSentiment (results : List SubResult) : ℚ :=
  results.foldl (fun acc r => acc + r.sentiment) 0

/-- The ten templated titles, built from `all_words` and `all_bigrams`.
Python evaluates the f-strings one by one and the first out-of-range index
raises; in this `Except` model the call succeeds exactly when every
referenced slot (word slots 0–4, bigram slots 0–2) exists, and otherwise
produces the same slot-less `IndexError` value. -/
def titlesFrom (allWords : List String) (allBigrams : List (String × String)) :
    Except PyErr (List String) := do
  let w0 ← pyGet allWords 0
  let w1 ← pyGet allWords 1
  let w2 ← pyGet allWords 2
  let w3 ← pyGet allWords 3
  let w4 ← pyGet allWords 4
  let b0 ← pyGet allBigrams 0
  let b1 ← pyGet allBigrams 1
  let b2 ← pyGet allBigrams 2
  pure
    [ "The Quest for Meaning: " ++ pyTitleCase w0 ++ " as a Path to Purpose",
      "From " ++ pyTitleCase w1 ++ " to " ++ pyTitleCase w2 ++ ": A Journey of Self-Discovery",
      "Understanding " ++ pyTitleCase w3 ++ ": The Key to Personal Growth",
      "The Art of " ++ pyTitleCase b0.1 ++ " " ++ pyTitleCase b0.2 ++ ": A Philosophical Perspective",
      "Beyond " ++ pyTitleCase w4 ++ ": Finding Authentic Purpose in Modern Life",
      "The " ++ pyTitleCase b1.1 ++ " " ++ pyTitleCase b1.2 ++ " Method: Transforming Self-Understanding",
      "Existential Wisdom: " ++ pyTitleCase w0 ++ " in the Age of Uncertainty",
      "The Power of " ++ pyTitleCase w2 ++ ": Navigating Life\x27s Big Questions",
      pyTitleCase b2.1 ++ " " ++ pyTitleCase b2.2 ++ ": A Blueprint for Personal Excellence",
      "Mastering " ++ pyTitleCase w1 ++ ": The Path to Authentic Living" ]

/-- Embedding of `generate_titles`. -/
def generateTitles (results : List SubResult) : Except PyErr (List String) :=
  let _overall := overallSentiment results
  titlesFrom (mergedWords results) (mergedBigrams results)

/-- Modelled from the spec (claim C3's wording): "top-K … by descending
count (ties broken lexicographically by term)".  Insertion sort by that
comparison; used as the comparison point for claim C3. -/
def insSorted {α : Type} (le : α → α → Bool) (x : α) : List α → List α
  | [] => [x]
  | y :: ys => if le x y then x :: y :: ys else y :: insSorted le x ys

/-- Modelled from the spec: sort a list by the Boolean comparison `le`. -/
def sortByB {α : Type} (le : α → α → Bool) (l : List α) : List α :=
  l.foldr (insSorted le) []

/-- Modelled from the spec: order two counter entries by descending count,
ties broken by ascending lexicographic term order. -/
def countThenLex (a b : String × Nat) : Bool :=
  Nat.blt b.2 a.2 || (a.2 == b.2 && lexLe a.1.data b.1.data)

/-- Modelled from the spec: the top `k` terms of a frequency table by
descending count with lexicographic tie-break. -/
def specTopTerms (c : List (String × Nat)) (k : Nat) : List String :=
  ((sortByB countThenLex c).map Prod.fst).take k

/-- Modelled from the spec: the merged term list claim C3 describes —
per-source top-5 unigrams by descending count, concatenated in source
order. -/
def specMergedWords (results : List SubResult) : List String :=
  (results.map fun r => specTopTerms r.wordFreq 5).flatten

/-! ## `theme-tracker.py`: `generate_video_context`

```python
brief_desc = description[:200] + "..." if len(description) > 200 else description
if re.search(r'meditation|mindfulness', title.lower() + brief_desc.lower()):
    context = "Meditation/Mindfulness practice"
elif ...
else:
    context = "General spiritual content"
return context
```

Every regex in the chain is a plain alternation of literals, so
`re.search(p1|...|pn, s)` holds exactly when some `pi` occurs contiguously
in `s`. -/

/-- `re.search` for an alternation of literal patterns. -/
def reSearch (alts : List String) (s : String) : Bool :=
  alts.any fun p => containsSub p.data s.data

/-- `brief_desc`: the first 200 characters of the description, with a
literal `"..."` appended when the description was truncated. -/
def briefDesc (d : String) : String :=
  if 200 < d.length then ⟨d.data.take 200⟩ ++ "..." else d

/-- The string every rule is matched against:
`title.lower() + brief_desc.lower()`. -/
def searchText (title desc : String) : String :=
  pyLower title ++ pyLower (briefDesc desc)

/-- Embedding of `generate_video_context`: the literal `if/elif` chain. -/
def genVideoContext (title desc : String) : String :=
  let s := searchText title desc
  if reSearch ["meditation", "mindfulness"] s then "Meditation/Mindfulness practice"
  else if reSearch ["buddhis", "zen", "tao"] s then "Eastern philosophy"
  else if reSearch ["christian", "jesus", "bible", "faith"] s then "Christian spirituality"
  else if reSearch ["islam", "muslim", "quran"] s then "Islamic spirituality"
  else if reSearch ["judaism", "jewish", "torah"] s then "Jewish spirituality"
  else if reSearch ["hindu", "vedanta", "yoga"] s then "Hindu spirituality"
  else if reSearch ["consciousness", "awareness"] s then "Consciousness exploration"
  else if reSearch ["psychedelic", "plant medicine", "ayahuasca", "dmt"] s then "Psychedelic spirituality"
  else if reSearch ["near death", "afterlife", "heaven"] s then "Afterlife exploration"
  else if reSearch ["science", "physics", "quantum"] s then "Science and spirituality"
  else "General spiritual content"

/-- The rule chain of `generate_video_context` as an ordered
`(patterns, label)` list, in declared order. -/
def contextRules : List (List String × String) :=
  [ (["meditation", "mindfulness"], "Meditation/Mindfulness practice"),
    (["buddhis", "zen", "tao"], "Eastern philosophy"),
    (["christian", "jesus", "bible", "faith"], "Christian spirituality"),
    (["islam", "muslim", "quran"], "Islamic spirituality"),
    (["judaism", "jewish", "torah"], "Jewish spirituality"),
    (["hindu", "vedanta", "yoga"], "Hindu spirituality"),
    (["consciousness", "awareness"], "Consciousness exploration"),
    (["psychedelic", "plant medicine", "ayahuasca", "dmt"], "Psychedelic spirituality"),
    (["near death", "afterlife", "heaven"], "Afterlife exploration"),
    (["science", "physics", "quantum"], "Science and spirituality") ]

/-- First-match evaluation of an ordered rule chain with a default label:
the generic form of the `if/elif/else` cascade. -/
def chainEvalD (rules : List (List String × String)) (dflt : String) (s : String) : String :=
  rules.foldr (fun r acc => if reSearch r.1 s then r.2 else acc) dflt

/-! ## `theme-tracker.py`: combined-source deduplication (tab 2)

```python
for v in weekly:   v['source'] = 'Last Week'
for v in monthly:  v['source'] = 'Last Month'
for v in biannual: v['source'] = 'Last 6 Months'
all_videos = weekly + monthly + biannual
video_ids_seen = set()
selected_videos = []
for video in all_videos:
    if video['video_id'] not in video_ids_seen:
        selected_videos.append(video)
        video_ids_seen.add(video['video_id'])
```
-/

/-- One mined YouTube video, reduced to the fields the combiner touches
(`title` stands for the rest of the payload). -/
structure Video where
  videoId : String
  source : String
  title : String
  deriving DecidableEq, Repr

/-- `v['source'] = label`. -/
def setSource (src : String) (v : Video) : Video := { v with source := src }

/-- `all_videos`: the three per-period lists, each tagged with its period
label, concatenated in the fixed order weekly, monthly, biannual. -/
def taggedAll (weekly monthly biannual : List Video) : List Video :=
  weekly.map (setSource "Last Week") ++ monthly.map (setSource "Last Month")
    ++ biannual.map (setSource "Last 6 Months")

/-- The dedup loop: keep a video only when its id has not been seen yet. -/
def dedupFirst : List Video → List String → List Video
  | [], _ => []
  | v :: vs, seen =>
    if v.videoId ∈ seen then dedupFirst vs seen
    else v :: dedupFirst vs (v.videoId :: seen)

/-- `selected_videos` of the "Combined (All Time Periods)" branch. -/
def combineAll (weekly monthly biannual : List Video) : List Video :=
  dedupFirst (taggedAll weekly monthly biannual) []

/-! ## Helper lemmas -/

/-- Lowercasing a character never yields an ASCII uppercase letter. -/
theorem charToLower_notUpper (c : Char) :
    ¬ (65 ≤ (charToLower c).toNat ∧ (charToLower c).toNat ≤ 90) := by
  unfold charToLower
  by_cases h : 65 ≤ c.toNat ∧ c.toNat ≤ 90
  · rw [if_pos h]
    obtain ⟨h1, h2⟩ := h
    intro hcon
    have hval : (Char.ofNat (c.toNat + 32)).toNat = c.toNat + 32 := by
      interval_cases hn : c.toNat <;> decide
    omega
  · rw [if_neg h]
    exact h

/-- An alphabetic character produced by `charToLower` is lowercase. -/
theorem charToLower_lower (d : Char) (h : pyIsAlphaChar (charToLower d) = true) :
    97 ≤ (charToLower d).toNat ∧ (charToLower d).toNat ≤ 122 := by
  have hnu := charToLower_notUpper d
  unfold pyIsAlphaChar at h
  rw [decide_eq_true_eq] at h
  rcases h with h | h
  · exact absurd h hnu
  · exact h

/-- Folding list-append over a list is concatenation of the mapped pieces. -/
theorem foldl_append_flatten {α β : Type} (f : α → List β) :
    ∀ (l : List α) (acc : List β),
      l.foldl (fun a x => a ++ f x) acc = acc ++ (l.map f).flatten := by
  intro l
  induction l with
  | nil => simp
  | cons x xs ih =>
    intro acc
    simp [List.foldl_cons, ih (acc ++ f x), List.append_assoc]

/-- Incrementing a counter leaves existing keys in place and appends a new
key at the end. -/
theorem counterAdd_keys {α : Type} [DecidableEq α] (c : List (α × Nat)) (x : α) :
    (counterAdd c x).map Prod.fst =
      if x ∈ c.map Prod.fst then c.map Prod.fst else c.map Prod.fst ++ [x] := by
  induction c with
  | nil => simp [counterAdd]
  | cons kn rest ih =>
    obtain ⟨k, n⟩ := kn
    by_cases hk : k = x
    · subst hk
      simp [counterAdd]
    · simp only [counterAdd, if_neg hk, List.map_cons, ih]
      have hx : x ∈ k :: rest.map Prod.fst ↔ x ∈ rest.map Prod.fst := by
        simp [List.mem_cons, Ne.symm hk]
      by_cases hm : x ∈ rest.map Prod.fst
      · simp [hm, hx]
      · simp [hm, hx]

/-- The keys of `counterOf` are the input's elements in first-occurrence
order (generalized over the accumulating counter). -/
theorem counterOf_keys_aux {α : Type} [DecidableEq α] :
    ∀ (l : List α) (c : List (α × Nat)),
      (l.foldl counterAdd c).map Prod.fst = firstOccAux (c.map Prod.fst) l := by
  intro l
  induction l with
  | nil => intro c; rfl
  | cons x xs ih =>
    intro c
    rw [List.foldl_cons, ih (counterAdd c x), counterAdd_keys]
    by_cases hm : x ∈ c.map Prod.fst
    · rw [if_pos hm]
      simp [firstOccAux, hm]
    · rw [if_neg hm]
      simp [firstOccAux, hm]

/-- The keys of `counterOf l` are the distinct elements of `l` in
first-occurrence order. -/
theorem counterOf_keys {α : Type} [DecidableEq α] (l : List α) :
    (counterOf l).map Prod.fst = firstOcc l :=
  counterOf_keys_aux l []

/-! ## Claim C1 — bigram table and item boundaries

The spec says bigram counting is per-sequence and that pairs never cross
item boundaries.  The code concatenates every item's tokens into one flat
list (`all_tokens.extend(tokens)`) before calling `nltk.bigrams`, so
adjacent tokens of consecutive items do form counted bigrams. -/

/-- Claim C1, counterexample: for the input `[["a","b"],["c","d"]]` the
claim says the bigram table "never" contains `(b,c)`; in the code's
aggregation it does (with count 1). -/
theorem c1_bigram_crosses_items :
    ("b", "c") ∈ ((extractThemes [["a", "b"], ["c", "d"]]).2.map Prod.fst)
      ∧ (extractThemes [["a", "b"], ["c", "d"]]).2 =
          [(("a", "b"), 1), (("b", "c"), 1), (("c", "d"), 1)] := by
  constructor
  · decide
  · decide

/-- Claim C1, amended: the frequency aggregator is insensitive to sequence
boundaries — it behaves exactly as if all items were one concatenated token
sequence, so a bigram may span two consecutive items; in particular for
`[["a","b"],["c","d"]]` the bigram table counts `(a,b)`, `(b,c)` and
`(c,d)` once each. -/
theorem c1_aggregator_ignores_boundaries :
    (∀ tokenLists : List (List String),
        extractThemes tokenLists = extractThemes [tokenLists.flatten])
      ∧ (extractThemes [["a", "b"], ["c", "d"]]).2 =
          [(("a", "b"), 1), (("b", "c"), 1), (("c", "d"), 1)] := by
  constructor
  · intro tokenLists
    simp [extractThemes]
  · decide

/-! ## Claim C8 — mean aggregation and the empty series

The spec says `aggregate_mean([]) == 0.0`.  The code aggregates with
`pandas.Series.mean()`, which yields `NaN` (here: `none`) on an empty
series; the 0.0-on-empty behavior exists nowhere in the code (the call is
merely guarded by `if not df.empty`). -/

/-- Claim C8, counterexample: the mean the code computes on an empty score
sequence is `NaN` (no numeric value), not `0.0`. -/
theorem c8_empty_mean_is_nan :
    seriesMean [] ≠ some 0 ∧ seriesMean [] = none := by
  constructor
  · decide
  · decide

/-- Claim C8, amended: for a non-empty score sequence the aggregation is the
arithmetic mean (the unique `m` with `m * n = sum` for `n` items), and
`aggregate_mean([1.0, -1.0]) == 0.0`; for the empty sequence the result is
`NaN` (`none`), not `0.0`. -/
theorem c8_mean_characterization :
    (∀ l : List ℚ, l ≠ [] →
        ∃ m, seriesMean l = some m ∧ m * (l.length : ℚ) = l.sum)
      ∧ seriesMean [(1 : ℚ), -1] = some 0
      ∧ seriesMean [] = none := by
  refine ⟨?_, ?_, rfl⟩
  · intro l hl
    have hne : ¬ l.isEmpty := by
      simpa [List.isEmpty_iff] using hl
    refine ⟨l.sum / (l.length : ℚ), ?_, ?_⟩
    · simp [seriesMean, hne]
    · have hlen : (l.length : ℚ) ≠ 0 := by
        have : l.length ≠ 0 := by
          simpa [List.length_eq_zero] using hl
        exact_mod_cast this
      exact div_mul_cancel₀ _ hlen
  · norm_num [seriesMean]

/-- Claim C8, witness: the amended mean characterization applied to the
concrete non-empty series `[2, 4]`. -/
theorem c8_mean_characterization_witness :
    ∃ m, seriesMean [(2 : ℚ), 4] = some m
      ∧ m * (([(2 : ℚ), 4].length : ℕ) : ℚ) = [(2 : ℚ), 4].sum :=
  c8_mean_characterization.1 [(2 : ℚ), 4] (by simp)

/-! ## Claim C4 — sentiment failure isolation

The spec says a per-item scoring failure substitutes 0.0 for that item only
and the rest of the batch continues.  In `analyze_sentiment` the `try`
wraps the whole loop, so one failing item throws away every score and the
whole batch degrades to zeros. -/

/-- Claim C4, counterexample: with a scorer that fails on `"bad"` and
scores `"good"` as 1, the code returns `[0, 0]` for the batch
`["bad", "good"]` — the claim's per-item policy would return `[0, 1]`, so
the failure on item 0 did change item 1's score. -/
theorem c4_batch_aborts :
    analyzeSentiment failOnBad ["bad", "good"] = [0, 0]
      ∧ specSentimentPerItem failOnBad ["bad", "good"] = [0, 1]
      ∧ analyzeSentiment failOnBad ["bad", "good"]
          ≠ specSentimentPerItem failOnBad ["bad", "good"] := by
  refine ⟨rfl, rfl, ?_⟩
  decide

/-- Claim C4, amended: when every item scores successfully the batch is the
per-item score list, but a scoring failure on ANY item makes the whole
batch collapse to the all-zero list of the batch's length (every item's
score is discarded, not just the failing item's). -/
theorem c4_failure_policy (score : String → Option ℚ) (texts : List String) :
    ((∀ t ∈ texts, (score t).isSome) →
        analyzeSentiment score texts = texts.map fun t => (score t).getD 0)
      ∧ ((∃ t ∈ texts, score t = none) →
        analyzeSentiment score texts = List.replicate texts.length 0) := by
  constructor
  · intro hall
    have hloop : ∀ ts : List String, (∀ t ∈ ts, (score t).isSome) →
        scoreLoop score ts = some (ts.map fun t => (score t).getD 0) := by
      intro ts
      induction ts with
      | nil => intro _; rfl
      | cons t ts ih =>
        intro h
        have ht := h t (List.mem_cons_self t ts)
        obtain ⟨p, hp⟩ := Option.isSome_iff_exists.mp ht
        have hrest := ih fun u hu => h u (List.mem_cons_of_mem t hu)
        simp [scoreLoop, hp, hrest]
    unfold analyzeSentiment
    rw [hloop texts hall]
  · intro ⟨t, ht, hnone⟩
    have hloop : ∀ ts : List String, (∃ u ∈ ts, score u = none) →
        scoreLoop score ts = none := by
      intro ts
      induction ts with
      | nil => rintro ⟨u, hu, _⟩; exact absurd hu (List.not_mem_nil u)
      | cons v ts ih =>
        rintro ⟨u, hu, hun⟩
        rcases List.mem_cons.mp hu with h | h
        · subst h
          simp [scoreLoop, hun]
        · unfold scoreLoop
          rcases hv : score v with _ | p
          · rfl
          · rw [ih ⟨u, h, hun⟩]
            rfl
    unfold analyzeSentiment
    rw [hloop texts ⟨t, ht, hnone⟩]

/-- Claim C4, witness: the amended failure policy applied to the concrete
scorer `failOnBad` and batch `["bad", "good"]`: the failure on `"bad"`
zeroes out the whole batch. -/
theorem c4_failure_policy_witness :
    analyzeSentiment failOnBad ["bad", "good"] = List.replicate 2 0 :=
  (c4_failure_policy failOnBad ["bad", "good"]).2 ⟨"bad", by decide, by decide⟩

/-! ## Claim C2 — template synthesizer failure mode

The spec says a caller that supplies fewer terms/bigrams than the highest
referenced slot gets an `InsufficientDataError` naming the missing slot.
The code defines no such error anywhere: `all_words[k]` / `all_bigrams[k]`
raise Python's builtin `IndexError("list index out of range")`, a generic
error naming no slot, swallowed by the catch-all handler in `main`. -/

/-- Complete case analysis of the title templates' slot demands: with word
slots 0–4 and bigram slots 0–2 available the synthesis yields exactly ten
titles, and with any slot missing it yields the slot-less `IndexError`. -/
theorem titlesFrom_cases (aw : List String) (ab : List (String × String)) :
    (5 ≤ aw.length ∧ 3 ≤ ab.length →
        ∃ ts, titlesFrom aw ab = Except.ok ts ∧ ts.length = 10)
      ∧ (aw.length < 5 ∨ ab.length < 3 →
        titlesFrom aw ab = Except.error PyErr.indexOutOfRange) := by
  rcases aw with (_ | ⟨w0, (_ | ⟨w1, (_ | ⟨w2, (_ | ⟨w3, (_ | ⟨w4, awr⟩)⟩)⟩)⟩)⟩)
  · exact ⟨fun h => absurd h.1 (by simp), fun _ => rfl⟩
  · exact ⟨fun h => absurd h.1 (by simp), fun _ => rfl⟩
  · exact ⟨fun h => absurd h.1 (by simp), fun _ => rfl⟩
  · exact ⟨fun h => absurd h.1 (by simp), fun _ => rfl⟩
  · exact ⟨fun h => absurd h.1 (by simp), fun _ => rfl⟩
  rcases ab with (_ | ⟨b0, (_ | ⟨b1, (_ | ⟨b2, abr⟩)⟩)⟩)
  · exact ⟨fun h => absurd h.2 (by simp), fun _ => rfl⟩
  · exact ⟨fun h => absurd h.2 (by simp), fun _ => rfl⟩
  · exact ⟨fun h => absurd h.2 (by simp), fun _ => rfl⟩
  refine ⟨fun _ => ⟨_, rfl, rfl⟩, fun h => ?_⟩
  rcases h with h | h <;> simp only [List.length_cons] at h <;> omega

/-- Claim C2, counterexample: a source with a single extracted term and no
bigrams makes `generate_titles` fail with the generic, slot-less
`IndexError` — there is no `InsufficientDataError` naming a slot. -/
theorem c2_generic_index_error :
    generateTitles [⟨counterOf ["love"], counterOf [], 0⟩]
      = Except.error PyErr.indexOutOfRange := rfl

/-- Claim C2, amended: when the merged term list has at least 5 entries and
the merged bigram list at least 3, the synthesizer returns exactly ten
titles; otherwise it raises Python's generic `IndexError` ("list index out
of range", identifying no slot), which the catch-all handler in `main`
absorbs — no `InsufficientDataError` exists and no truncated output is
produced. -/
theorem c2_failure_is_index_error (results : List SubResult) :
    (5 ≤ (mergedWords results).length ∧ 3 ≤ (mergedBigrams results).length →
        ∃ ts, generateTitles results = Except.ok ts ∧ ts.length = 10)
      ∧ ((mergedWords results).length < 5 ∨ (mergedBigrams results).length < 3 →
        generateTitles results = Except.error PyErr.indexOutOfRange) :=
  titlesFrom_cases (mergedWords results) (mergedBigrams results)

/-- Claim C2, witness: with five terms and three bigrams available the
synthesis succeeds with ten titles. -/
theorem c2_failure_is_index_error_witness :
    ∃ ts,
      generateTitles
          [⟨counterOf ["a", "b", "c", "d", "e"],
            counterOf [("p", "q"), ("q", "r"), ("r", "s")], 0⟩]
        = Except.ok ts ∧ ts.length = 10 :=
  (c2_failure_is_index_error
      [⟨counterOf ["a", "b", "c", "d", "e"],
        counterOf [("p", "q"), ("q", "r"), ("r", "s")], 0⟩]).1
    (by decide)

/-! ## Claim C3 — cross-source term merging

The spec says each source contributes its top-K unigrams / top-J bigrams by
descending count (ties broken lexicographically).  The code takes
`list(counter.keys())[:5]` and `[:3]` — the FIRST keys in the counter's
insertion (first-occurrence) order — and never sorts by count. -/

/-- Claim C3, counterexample: in a source whose tokens were
`a b c d e f f`, the term `f` has the highest count (2), so the claimed
top-5-by-descending-count list is `[f, a, b, c, d]`; the code instead takes
the first five insertion-order keys `[a, b, c, d, e]`, dropping the most
frequent term entirely. -/
theorem c3_no_count_ranking :
    mergedWords [⟨counterOf ["a", "b", "c", "d", "e", "f", "f"], [], 0⟩]
        = ["a", "b", "c", "d", "e"]
      ∧ specMergedWords [⟨counterOf ["a", "b", "c", "d", "e", "f", "f"], [], 0⟩]
        = ["f", "a", "b", "c", "d"]
      ∧ mergedWords [⟨counterOf ["a", "b", "c", "d", "e", "f", "f"], [], 0⟩]
        ≠ specMergedWords [⟨counterOf ["a", "b", "c", "d", "e", "f", "f"], [], 0⟩] := by
  refine ⟨?_, ?_, ?_⟩ <;> decide

/-- Claim C3, amended: the merged lists are formed by taking, for each
source independently, the first 5 unigram keys and first 3 bigram keys of
its frequency table in first-occurrence (insertion) order — the order in
which the terms first appeared in the source's token stream — and
concatenating these per-source prefixes in source order; no ranking by
count and no cross-source re-ranking is applied. -/
theorem c3_merge_in_insertion_order :
    (∀ results : List SubResult,
        mergedWords results
            = (results.map fun r => (r.wordFreq.map Prod.fst).take 5).flatten
          ∧ mergedBigrams results
            = (results.map fun r => (r.bigramFreq.map Prod.fst).take 3).flatten)
      ∧ (∀ l : List String, (counterOf l).map Prod.fst = firstOcc l)
      ∧ (∀ l : List (String × String), (counterOf l).map Prod.fst = firstOcc l) := by
  refine ⟨fun results => ⟨?_, ?_⟩, counterOf_keys, counterOf_keys⟩
  · simpa using
      foldl_append_flatten (fun r : SubResult => (r.wordFreq.map Prod.fst).take 5) results []
  · simpa using
      foldl_append_flatten (fun r : SubResult => (r.bigramFreq.map Prod.fst).take 3) results []

/-! ## Claim C10 — titles are independent of sentiment

`generate_titles` accumulates `overall_sentiment` but no title ever reads
it: the ten titles are a function of the word/bigram frequency tables
alone. -/

/-- Claim C10: two results dictionaries that agree source-by-source on the
word-frequency and bigram-frequency tables, but carry arbitrarily different
per-source sentiment values, produce identical title lists. -/
theorem c10_titles_ignore_sentiment (r1 r2 : List SubResult)
    (hfreq : r1.map (fun r => (r.wordFreq, r.bigramFreq))
        = r2.map (fun r => (r.wordFreq, r.bigramFreq))) :
    generateTitles r1 = generateTitles r2 := by
  have hproj : ∀ {β : Type}
      (g : List (String × Nat) × List ((String × String) × Nat) → β)
      (rs : List SubResult),
      rs.map (fun r => g (r.wordFreq, r.bigramFreq))
        = (rs.map (fun r => (r.wordFreq, r.bigramFreq))).map g := by
    intro β g rs
    rw [List.map_map]
    rfl
  have hw : mergedWords r1 = mergedWords r2 := by
    unfold mergedWords
    rw [foldl_append_flatten (fun r : SubResult => (r.wordFreq.map Prod.fst).take 5) r1 [],
      foldl_append_flatten (fun r : SubResult => (r.wordFreq.map Prod.fst).take 5) r2 []]
    rw [show (fun r : SubResult => (r.wordFreq.map Prod.fst).take 5)
        = fun r : SubResult => ((r.wordFreq, r.bigramFreq).1.map Prod.fst).take 5 from rfl]
    rw [hproj (fun p => (p.1.map Prod.fst).take 5) r1,
      hproj (fun p => (p.1.map Prod.fst).take 5) r2, hfreq]
  have hb : mergedBigrams r1 = mergedBigrams r2 := by
    unfold mergedBigrams
    rw [foldl_append_flatten (fun r : SubResult => (r.bigramFreq.map Prod.fst).take 3) r1 [],
      foldl_append_flatten (fun r : SubResult => (r.bigramFreq.map Prod.fst).take 3) r2 []]
    rw [show (fun r : SubResult => (r.bigramFreq.map Prod.fst).take 3)
        = fun r : SubResult => ((r.wordFreq, r.bigramFreq).2.map Prod.fst).take 3 from rfl]
    rw [hproj (fun p => (p.2.map Prod.fst).take 3) r1,
      hproj (fun p => (p.2.map Prod.fst).take 3) r2, hfreq]
  show titlesFrom (mergedWords r1) (mergedBigrams r1)
      = titlesFrom (mergedWords r2) (mergedBigrams r2)
  rw [hw, hb]

/-- Claim C10, witness: the same frequency tables with sentiment 0 versus
sentiment 37 yield the same titles. -/
theorem c10_titles_ignore_sentiment_witness :
    generateTitles [⟨counterOf ["x"], [], 0⟩]
      = generateTitles [⟨counterOf ["x"], [], 37⟩] :=
  c10_titles_ignore_sentiment _ _ rfl

/-! ## Claims C6 and C7 — the rule-based classifier -/

/-- The literal `if/elif` chain of `generate_video_context` is the
first-match evaluation of `contextRules` with the default
"General spiritual content". -/
theorem genVideoContext_eq_chain (title desc : String) :
    genVideoContext title desc
      = chainEvalD contextRules "General spiritual content" (searchText title desc) := rfl

/-- A rule chain in which no rule matches evaluates to the default label. -/
theorem chainEvalD_default (rules : List (List String × String)) (dflt s : String)
    (h : ∀ r ∈ rules, reSearch r.1 s = false) :
    chainEvalD rules dflt s = dflt := by
  induction rules with
  | nil => rfl
  | cons r rest ih =>
    have hr := h r (List.mem_cons_self r rest)
    have hrest := ih fun u hu => h u (List.mem_cons_of_mem r hu)
    unfold chainEvalD at hrest ⊢
    rw [List.foldr_cons, hr]
    simpa using hrest

/-- A rule chain evaluates to the label of rule `i` whenever rule `i`
matches and no earlier rule does. -/
theorem chainEvalD_first (rules : List (List String × String)) (dflt s : String) :
    ∀ (i : Nat) (hi : i < rules.length),
      reSearch (rules.get ⟨i, hi⟩).1 s = true →
      (∀ j (hj : j < i), reSearch (rules.get ⟨j, Nat.lt_trans hj hi⟩).1 s = false) →
      chainEvalD rules dflt s = (rules.get ⟨i, hi⟩).2 := by
  induction rules with
  | nil =>
    intro i hi
    exact absurd hi (by simp)
  | cons r rest ih =>
    intro i hi hmatch hprior
    cases i with
    | zero =>
      have hm : reSearch r.1 s = true := hmatch
      show (if reSearch r.1 s = true then r.2 else chainEvalD rest dflt s) = r.2
      rw [hm]
      simp
    | succ i' =>
      have h0 : reSearch r.1 s = false := hprior 0 (Nat.succ_pos i')
      have hi' : i' < rest.length := by
        simpa using hi
      have hmatch' : reSearch (rest.get ⟨i', hi'⟩).1 s = true := hmatch
      have hprior' : ∀ j (hj : j < i'),
          reSearch (rest.get ⟨j, Nat.lt_trans hj hi'⟩).1 s = false := fun j hj =>
        hprior (j + 1) (Nat.succ_lt_succ hj)
      have hrest := ih i' hi' hmatch' hprior'
      show (if reSearch r.1 s = true then r.2 else chainEvalD rest dflt s)
          = (rest.get ⟨i', hi'⟩).2
      rw [h0]
      simpa using hrest

/-- Claim C7: `generate_video_context` evaluates its rules in declared
order and returns the label of the first rule whose pattern list matches
the concatenation of the lowercased title and the bounded lowercased
description prefix; an input matching several rules gets the earliest
rule's label. -/
theorem c7_first_match_wins (title desc : String) (i : Nat)
    (hi : i < contextRules.length)
    (hmatch : reSearch (contextRules.get ⟨i, hi⟩).1 (searchText title desc) = true)
    (hprior : ∀ j (hj : j < i),
      reSearch (contextRules.get ⟨j, Nat.lt_trans hj hi⟩).1 (searchText title desc) = false) :
    genVideoContext title desc = (contextRules.get ⟨i, hi⟩).2 := by
  rw [genVideoContext_eq_chain]
  exact chainEvalD_first contextRules _ _ i hi hmatch hprior

/-- Claim C7, witness: `"I love meditation"` matches the first rule (no
earlier rule exists), so the classifier returns
"Meditation/Mindfulness practice". -/
theorem c7_first_match_wins_witness :
    genVideoContext "I love meditation" "" = "Meditation/Mindfulness practice" :=
  c7_first_match_wins "I love meditation" "" 0 (by decide) (by decide)
    (fun j hj => absurd hj (Nat.not_lt_zero j))

/-- Claim C6, counterexample: on `("random topic", "nothing relevant")` no
rule matches and the classifier returns its actual default label
"General spiritual content" — not the label `"general"` the claim states. -/
theorem c6_default_not_general :
    genVideoContext "random topic" "nothing relevant" ≠ "general"
      ∧ genVideoContext "random topic" "nothing relevant" = "General spiritual content" := by
  refine ⟨?_, ?_⟩ <;> decide

/-- Claim C6, amended: when no rule pattern matches the concatenation of
the lowercased title and bounded description prefix, the classifier
returns its default label, which is the string "General spiritual content";
in particular `classify("random topic", "nothing relevant")` returns
"General spiritual content". -/
theorem c6_default_label (title desc : String)
    (hnone : ∀ r ∈ contextRules, reSearch r.1 (searchText title desc) = false) :
    genVideoContext title desc = "General spiritual content" := by
  rw [genVideoContext_eq_chain]
  exact chainEvalD_default contextRules _ _ hnone

/-- Claim C6, witness: the amended default-label theorem applied at the
concrete input `("random topic", "nothing relevant")`, where no rule
matches. -/
theorem c6_default_label_witness :
    genVideoContext "random topic" "nothing relevant" = "General spiritual content" :=
  c6_default_label "random topic" "nothing relevant" (by decide)

/-! ## Claim C9 — cross-source deduplication -/

/-- Once an id is in the seen-set, the dedup loop never emits it again. -/
theorem dedupFirst_filter_seen (id : String) :
    ∀ (l : List Video) (seen : List String), id ∈ seen →
      (dedupFirst l seen).filter (fun v => v.videoId == id) = [] := by
  intro l
  induction l with
  | nil => intro seen _; rfl
  | cons v vs ih =>
    intro seen hid
    by_cases hv : v.videoId ∈ seen
    · simp only [dedupFirst, if_pos hv]
      exact ih seen hid
    · have hne : (v.videoId == id) = false :=
        beq_eq_false_iff_ne.mpr fun he => hv (he ▸ hid)
      simp only [dedupFirst, if_neg hv, List.filter_cons, hne]
      simpa using ih (v.videoId :: seen) (List.mem_cons_of_mem _ hid)

/-- For an id not yet seen, the dedup loop keeps exactly the first video
with that id, in input order. -/
theorem dedupFirst_filter_fresh (id : String) :
    ∀ (l : List Video) (seen : List String), id ∉ seen →
      (dedupFirst l seen).filter (fun v => v.videoId == id)
        = (l.filter (fun v => v.videoId == id)).take 1 := by
  intro l
  induction l with
  | nil => intro seen _; rfl
  | cons v vs ih =>
    intro seen hid
    by_cases hv : v.videoId ∈ seen
    · have hne : (v.videoId == id) = false :=
        beq_eq_false_iff_ne.mpr fun he => hid (he ▸ hv)
      simp only [dedupFirst, if_pos hv, List.filter_cons, hne]
      simpa using ih seen hid
    · simp only [dedupFirst, if_neg hv, List.filter_cons]
      by_cases hvid : v.videoId = id
      · subst hvid
        simp only [beq_self_eq_true]
        rw [dedupFirst_filter_seen v.videoId vs (v.videoId :: seen)
          (List.mem_cons_self _ _)]
        simp
      · have hne : (v.videoId == id) = false := beq_eq_false_iff_ne.mpr hvid
        simp only [hne]
        have hid' : id ∉ v.videoId :: seen := by
          simp only [List.mem_cons, not_or]
          exact ⟨fun he => hvid he.symm, hid⟩
        simpa using ih (v.videoId :: seen) hid'

/-- Claim C9: combining the three per-period video lists keeps, for every
id, exactly the first tagged occurrence in the fixed
weekly-monthly-biannual iteration order (so the survivor carries the tag of
the first source that contained the id), and every id that occurs at all
occurs exactly once in the deduplicated output. -/
theorem c9_dedup_keeps_first (weekly monthly biannual : List Video) (id : String) :
    (combineAll weekly monthly biannual).filter (fun v => v.videoId == id)
        = ((taggedAll weekly monthly biannual).filter (fun v => v.videoId == id)).take 1
      ∧ (id ∈ (taggedAll weekly monthly biannual).map (fun v => v.videoId) →
        ((combineAll weekly monthly biannual).filter (fun v => v.videoId == id)).length
          = 1) := by
  have hmain := dedupFirst_filter_fresh id (taggedAll weekly monthly biannual) []
    (List.not_mem_nil id)
  refine ⟨hmain, fun hmem => ?_⟩
  rw [show combineAll weekly monthly biannual
      = dedupFirst (taggedAll weekly monthly biannual) [] from rfl, hmain]
  obtain ⟨v, hv, hvid⟩ := List.mem_map.mp hmem
  have hvf : v ∈ (taggedAll weekly monthly biannual).filter (fun v => v.videoId == id) :=
    List.mem_filter.mpr ⟨hv, beq_iff_eq.mpr hvid⟩
  have hpos :
      1 ≤ ((taggedAll weekly monthly biannual).filter (fun v => v.videoId == id)).length :=
    List.length_pos.mpr (List.ne_nil_of_mem hvf)
  rw [List.length_take, min_eq_left hpos]

/-- Claim C9, witness: two sources both containing id `"v1"`; exactly one
survives, and it is the weekly one, tagged "Last Week". -/
theorem c9_dedup_keeps_first_witness :
    ((combineAll [⟨"v1", "", "first"⟩] [⟨"v1", "", "second"⟩] []).filter
        (fun v => v.videoId == "v1")).length = 1
      ∧ combineAll [⟨"v1", "", "first"⟩] [⟨"v1", "", "second"⟩] []
        = [⟨"v1", "Last Week", "first"⟩] :=
  ⟨(c9_dedup_keeps_first [⟨"v1", "", "first"⟩] [⟨"v1", "", "second"⟩] [] "v1").2
      (by decide),
    by decide⟩

/-! ## Claim C5 — the text normalizer's output shape

`preprocess_text` lowercases the text, tokenizes, keeps only alphabetic
non-stopword tokens of length > 1, and lemmatizes the survivors; empty or
all-whitespace input short-circuits to `[]` before tokenization.  The
tokenizer and lemmatizer are external NLTK collaborators, so the theorem is
parametric in them: the tokenizer may cut the lowered text into arbitrary
pieces of its characters, and the lemmatizer must map well-shaped tokens to
well-shaped tokens (the identity lemmatizer trivially does). -/

/-- Claim C5: every token the normalizer returns is non-empty, purely
alphabetic, lowercase, of length at least 2 and not a stopword; and empty
or all-whitespace input yields the empty sequence (the function is total,
so no input yields an error). -/
theorem c5_normalizer_output_shape (tokenize : String → List String)
    (lemmatize : String → String) (stopWords : List String) (text : String)
    (htok : ∀ t ∈ tokenize (pyLower text), ∀ c ∈ t.data, c ∈ (pyLower text).data)
    (hlem : ∀ t, validToken stopWords t → validToken stopWords (lemmatize t)) :
    (∀ t ∈ preprocessText tokenize lemmatize stopWords text, validToken stopWords t)
      ∧ (text.data.all pyIsSpaceChar = true →
        preprocessText tokenize lemmatize stopWords text = []) := by
  constructor
  · intro t ht
    unfold preprocessText at ht
    by_cases hsp : (pyFalsy text || pyIsSpace text) = true
    · rw [if_pos hsp] at ht
      exact absurd ht (List.not_mem_nil t)
    · rw [if_neg hsp] at ht
      obtain ⟨t₀, ht₀, rfl⟩ := List.mem_map.mp ht
      obtain ⟨htk, hcond⟩ := List.mem_filter.mp ht₀
      rw [Bool.and_eq_true, Bool.and_eq_true] at hcond
      obtain ⟨⟨halpha, hstop⟩, hlen⟩ := hcond
      rw [pyIsAlpha, Bool.and_eq_true] at halpha
      obtain ⟨hne, hall⟩ := halpha
      apply hlem
      refine ⟨?_, ?_, ?_, ?_⟩
      · intro hnil
        rw [hnil] at hne
        exact absurd hne (by simp)
      · intro c hc
        have hca : pyIsAlphaChar c = true := List.all_eq_true.mp hall c hc
        have hcl : c ∈ (pyLower text).data := htok t₀ htk c hc
        obtain ⟨d, _, rfl⟩ := List.mem_map.mp hcl
        exact ⟨hca, charToLower_lower d hca⟩
      · have := of_decide_eq_true hlen
        omega
      · intro hmem
        have : stopWords.contains t₀ = true := List.elem_iff.mpr hmem
        rw [this] at hstop
        exact absurd hstop (by simp)
  · intro hws
    have hcut : (pyFalsy text || pyIsSpace text) = true := by
      by_cases he : text.data.isEmpty
      · simp [pyFalsy, he]
      · simp [pyFalsy, pyIsSpace, he, hws]
    unfold preprocessText
    rw [if_pos hcut]

/-- Claim C5, witness: the theorem applied with a concrete whitespace
tokenizer, the identity lemmatizer and the stopword set
`["the", "is", "a"]`: on `"The CAT is on a mat"` every output token is
well-shaped (concretely the output is `["cat", "on", "mat"]`), and on the
all-whitespace input `"   "` the output is empty. -/
theorem c5_normalizer_output_shape_witness :
    (∀ t ∈ preprocessText wsTokenize (fun t => t) ["the", "is", "a"]
        "The CAT is on a mat", validToken ["the", "is", "a"] t)
      ∧ preprocessText wsTokenize (fun t => t) ["the", "is", "a"] "   " = []
      ∧ preprocessText wsTokenize (fun t => t) ["the", "is", "a"]
          "The CAT is on a mat" = ["cat", "on", "mat"] :=
  ⟨(c5_normalizer_output_shape wsTokenize (fun t => t) ["the", "is", "a"]
      "The CAT is on a mat" (by decide) (fun t h => h)).1,
    (c5_normalizer_output_shape wsTokenize (fun t => t) ["the", "is", "a"]
      "   " (by decide) (fun t h => h)).2 (by decide),
    by decide⟩

end ThemeTracker
